import Mathlib

/-!
Formal model of `keynote_slides_freezer.py` (class `KeynoteSlidesFreezer`).

The script drives Keynote through a scripting bridge.  We embed its data flow
shallowly:

* a slide item carries exactly the attributes the script inspects
  (`object_text.font`, `locked`, whether its scripting reference is the
  default body / default title placeholder) plus, for image items, the data
  pasted into it and whether it was sent to the back of the slide;
* a slide carries the item collections the script touches (`text_items`,
  `shapes`, `charts`, `images`, `groups`, `lines`, `tables`) and the
  `body_showing` / `title_showing` properties;
* files are modelled by a map from paths to file data; a path is either a
  path outside the process-private temporary directory or a (subfolder,
  name) pair inside it.  The temporary directory is freshly created by
  `tempfile.TemporaryDirectory`, so no pre-existing file lives inside it;
* Keynote documents autosave, so closing a document writes the in-memory
  document back to its file;
* rasterisation of a cleaned slide to a PDF page is an arbitrary function
  `rend : Slide P → P` over an arbitrary page type `P`.

Pure string manipulations (`str.split("-")[0]`, `str.startswith`,
`f"{i+1:04}"`) are modelled on the underlying character lists.
-/

namespace KSF

/-- Characters of the decimal representation of `n`, most significant digit
first; models the decimal formatting used by the Python f-string.  `fuel`
bounds the recursion; with `fuel = n + 1` it never runs out. -/
def decChars : Nat → Nat → List Char
  | 0, _ => []
  | fuel + 1, n =>
    if n < 10 then [Nat.digitChar n]
    else decChars fuel (n / 10) ++ [Nat.digitChar (n % 10)]

/-- Decimal representation of a natural number, as produced by `str(n)`. -/
def decRepr (n : Nat) : String := ⟨decChars (n + 1) n⟩

/-- Models the Python format expression `f"{n:04}"`: the decimal
representation of `n`, left-padded with zeros to at least four characters. -/
def pad4 (n : Nat) : String :=
  ⟨List.replicate (4 - (decRepr n).length) '0' ++ (decRepr n).data⟩

/-- File name of the `i`-th single-page PDF produced by `split_pdf`
(`f"{i:04}.pdf"`). -/
def page_name (n : Nat) : String := pad4 n ++ ".pdf"

/-- One step of reading a decimal numeral: `decStep acc c` consumes digit
character `c`.  Used only to prove `pad4` injective. -/
def decStep (acc : Nat) (c : Char) : Nat := acc * 10 + (c.toNat - 48)

/-- Models `name.split("-")[0]`: the part of `name` before the first
hyphen (all of `name` when it has no hyphen). -/
def font_family (name : String) : String := ⟨name.data.takeWhile (fun c => c ≠ '-')⟩

/-- A Keynote slide item, restricted to the attributes the script reads.
`P` is the type of PDF pages.  `font` is `item.object_text.font`;
`isDefaultBody` / `isDefaultTitle` record whether `repr(item)` identifies the
item as the slide's `default_body_item` / `default_title_item`; `pasted` is
`some d` when the item is an image created by pasting PDF data `d` from the
clipboard; `atBack` records that the item was sent to the back of the slide
(the Cmd-Shift-B keystroke). -/
structure SlideItem (P : Type) where
  font : String
  locked : Bool
  isDefaultBody : Bool
  isDefaultTitle : Bool
  pasted : Option (List P)
  atBack : Bool
deriving DecidableEq

/-- A Keynote slide: the item collections the script touches and the two
placeholder-visibility properties. -/
structure Slide (P : Type) where
  textItems : List (SlideItem P)
  shapes : List (SlideItem P)
  charts : List (SlideItem P)
  images : List (SlideItem P)
  groups : List (SlideItem P)
  lines : List (SlideItem P)
  tables : List (SlideItem P)
  bodyShowing : Bool
  titleShowing : Bool
deriving DecidableEq

/-- Contents of a file: a Keynote document (a list of slides) or a PDF
document (a list of pages). -/
inductive FileData (P : Type) where
  | key (slides : List (Slide P)) : FileData P
  | pdf (pages : List P) : FileData P
deriving DecidableEq

/-- A file path: either outside the process-private temporary directory
(identified by its full name), or inside it, given by an optional subfolder
and a file name. -/
inductive FsPath where
  | outside (name : String) : FsPath
  | temp (subdir : Option String) (name : String) : FsPath
deriving DecidableEq

/-- The file system: a partial map from paths to file contents. -/
def FS (P : Type) := FsPath → Option (FileData P)

/-- Writing (or deleting, with `v = none`) one file. -/
def update (fs : FS P) (p : FsPath) (v : Option (FileData P)) : FS P :=
  fun q => if q = p then v else fs q

/-- `safe_text_item` (lines 123-128): the item's font name is split at the
first hyphen and the part before it must start with one of the configured
font family names.  `str.startswith` is prefix testing on the characters. -/
def safe_text_item (fonts : List String) (it : SlideItem P) : Bool :=
  fonts.any (fun f => f.data.isPrefixOf (font_family it.font).data)

/-- Whether the loop body of `clean_items` (lines 144-161) actually deletes
`it`: the item is scheduled (`safe_text_item(item) != keep_text_items`), is
neither the default body nor the default title placeholder (those are
exempted and hidden instead), and is not locked (locked items are skipped at
deletion time). -/
def deletes_item (fonts : List String) (keep : Bool) (it : SlideItem P) : Bool :=
  (safe_text_item fonts it != keep) && !it.isDefaultBody && !it.isDefaultTitle && !it.locked

/-- Items surviving one `clean_items` pass.  The Python code first collects
`items_to_delete`, reverses it and deletes each non-locked entry; which items
remain does not depend on that order. -/
def clean_items (fonts : List String) (keep : Bool) (items : List (SlideItem P)) :
    List (SlideItem P) :=
  items.filter (fun it => !deletes_item fonts keep it)

/-- `body_showing` after one `clean_items` pass: the pass sets it to `False`
exactly when it encounters a scheduled default-body item while the property
is still `True`. -/
def body_after (fonts : List String) (keep : Bool) (body : Bool)
    (items : List (SlideItem P)) : Bool :=
  body && !items.any (fun it => it.isDefaultBody && (safe_text_item fonts it != keep))

/-- `title_showing` after one `clean_items` pass.  The `elif` in the source
means an item whose reference names both placeholders is handled by the body
branch, so the title branch requires `¬isDefaultBody`. -/
def title_after (fonts : List String) (keep : Bool) (title : Bool)
    (items : List (SlideItem P)) : Bool :=
  title &&
    !items.any (fun it =>
      !it.isDefaultBody && it.isDefaultTitle && (safe_text_item fonts it != keep))

/-- `clean_slide` (lines 163-181): run `clean_items` over `text_items`, then
over `shapes`; when `keep_text_items` is true additionally delete all charts,
images, groups, lines and tables. -/
def clean_slide (fonts : List String) (keep : Bool) (s : Slide P) : Slide P :=
  let s1 : Slide P :=
    { s with
      textItems := clean_items fonts keep s.textItems
      bodyShowing := body_after fonts keep s.bodyShowing s.textItems
      titleShowing := title_after fonts keep s.titleShowing s.textItems }
  let s2 : Slide P :=
    { s1 with
      shapes := clean_items fonts keep s1.shapes
      bodyShowing := body_after fonts keep s1.bodyShowing s1.shapes
      titleShowing := title_after fonts keep s1.titleShowing s1.shapes }
  if keep then
    { s2 with charts := [], images := [], groups := [], lines := [], tables := [] }
  else s2

/-- `clean_text_slide` (lines 183-197): `clean_slide` with
`keep_text_items=True`.  The unused `slidei` parameter is dropped. -/
def clean_text_slide (fonts : List String) (s : Slide P) : Slide P :=
  clean_slide fonts true s

/-- `clean_pdf_slide` (lines 199-212): `clean_slide` with
`keep_text_items=False`. -/
def clean_pdf_slide (fonts : List String) (s : Slide P) : Slide P :=
  clean_slide fonts false s

/-- `split_pdf` (lines 313-343), page-splitting part: for each page index
`i` of the source PDF produce the file `f"{i+1:04}.pdf"` holding exactly
page `i` (`insert_pdf(..., from_page=i, to_page=i)`), in ascending order of
`i`.  Returns the (file name, file pages) pairs in the order the files are
written and recorded in `pdf_page_paths`. -/
def split_pdf (pages : List P) : List (String × List P) :=
  pages.enum.map (fun ip => (page_name (ip.1 + 1), [ip.2]))

/-- Writing the files produced by `split_pdf` into the pages folder inside
the temporary directory. -/
def write_pages (fs : FS P) (folder : String) (prs : List (String × List P)) : FS P :=
  prs.foldl (fun fs pr => update fs (FsPath.temp (some folder) pr.1) (some (FileData.pdf pr.2))) fs

/-- `NSData.dataWithContentsOfFile_` followed by placing the data on the
pasteboard as PDF data: the clipboard contents read from the page file at
`p` (no data when the file is missing or is not a PDF). -/
def clip_data (fs : FS P) (p : FsPath) : Option (List P) :=
  match fs p with
  | some (FileData.pdf d) => some d
  | _ => none

/-- The per-slide body of `process_doc_text` (lines 244-269): clean the
slide keeping safe text items, paste the clipboard PDF data as a new image,
and if the slide now has any image select the first one and send it to the
back (Cmd-Shift-B). -/
def overlay_slide (fonts : List String) (clip : Option (List P)) (s : Slide P) : Slide P :=
  let s1 := clean_text_slide fonts s
  let s2 :=
    match clip with
    | some d =>
      { s1 with images := s1.images ++ [(⟨"", false, false, false, some d, false⟩ : SlideItem P)] }
    | none => s1
  match s2.images with
  | [] => s2
  | img :: rest => { s2 with images := { img with atBack := true } :: rest }

/-- `process_doc_text` loop (lines 244-269) over the text copy's slides:
slide `i` is overlaid with the data of the file `pdf_page_paths[i]`.
Returns `none` when a slide has no corresponding page path (the Python code
would raise `IndexError`). -/
def process_doc_text (fonts : List String) (fs : FS P) :
    List (Slide P) → List FsPath → Option (List (Slide P))
  | [], _ => some []
  | _ :: _, [] => none
  | s :: ss, p :: ps =>
    (process_doc_text fonts fs ss ps).map
      (fun rest => overlay_slide fonts (clip_data fs p) s :: rest)

/-- The fate of one input slide across the whole pipeline: it is cleaned in
the text copy and overlaid with the rasterisation of its cleaned vector-copy
counterpart (which is the corresponding page of the exported PDF). -/
def frozen_slide (rend : Slide P → P) (fonts : List String) (s : Slide P) : Slide P :=
  overlay_slide fonts (some [rend (clean_slide fonts false s)]) s

/-- The file system after a successful run of `process`: every file in the
temporary directory is gone (`cleanup` removes the pages folder, the PDF
copy, and `TemporaryDirectory.cleanup` removes the rest), the processed text
copy has been moved to the output path, and every other outside file is
untouched. -/
def process_result (fs0 : FS P) (out : FileData P) (outName : String) : FS P :=
  fun q =>
    match q with
    | FsPath.temp _ _ => none
    | FsPath.outside nm => if nm = outName then some out else fs0 (FsPath.outside nm)

/-- `process` (lines 362-394).  The input document lives outside the
temporary directory at `dir ++ "/" ++ stem ++ suffix` (directory, stem and
extension as decomposed by `pathlib`); `outOpt` is the optional `out_path`
argument, defaulting to `<dir>/<stem>-frozen.key`.  Steps, in source order:
copy the input to `<stem>-pdf.key` in the temporary directory and open it;
clean every slide with `clean_pdf_slide`; export the cleaned copy to
`<stem>-pdf.pdf`; split that PDF into single-page files; copy the input to
`<stem>-text.key` and open it; run the `process_doc_text` loop; close both
copies (autosave), move the text copy to the output path and remove the
temporary directory.  Returns `none` where the Python code would raise. -/
def process (fs0 : FS P) (rend : Slide P → P) (dir stem suffix : String)
    (fonts : List String) (outOpt : Option String) : Option (FS P) :=
  let docKey := FsPath.outside (dir ++ "/" ++ stem ++ suffix)
  let outKey := FsPath.outside (outOpt.getD (dir ++ "/" ++ stem ++ "-frozen.key"))
  match fs0 docKey with
  | none => none
  | some d0 =>
    let pdfKeyP := FsPath.temp none (stem ++ "-pdf.key")
    let fs1 := update fs0 pdfKeyP (some d0)
    match fs1 pdfKeyP with
    | some (FileData.key deckPdf0) =>
      let deckPdf := deckPdf0.map (clean_slide fonts false)
      let pdfP := FsPath.temp none (stem ++ "-pdf.pdf")
      let fs2 := update fs1 pdfP (some (FileData.pdf (deckPdf.map rend)))
      match fs2 pdfP with
      | some (FileData.pdf pages) =>
        let folder := stem ++ "-pdf"
        let prs := split_pdf pages
        let fs3 := write_pages fs2 folder prs
        let paths := prs.map (fun pr => FsPath.temp (some folder) pr.1)
        match fs3 docKey with
        | none => none
        | some d1 =>
          let textKeyP := FsPath.temp none (stem ++ "-text.key")
          let fs4 := update fs3 textKeyP (some d1)
          match fs4 textKeyP with
          | some (FileData.key deckT) =>
            match process_doc_text fonts fs4 deckT paths with
            | some deckText =>
              let fs5 := update fs4 textKeyP (some (FileData.key deckText))
              let fs6 := update (update fs5 outKey (fs5 textKeyP)) textKeyP none
              some (fun q =>
                match q with
                | FsPath.temp _ _ => none
                | _ => fs6 q)
            | none => none
          | _ => none
      | _ => none
    | _ => none

/-! Concrete sample data used by the witness and counterexample theorems. -/

/-- A text item in an approved font, unlocked, not a placeholder. -/
def itemSafe : SlideItem Nat := ⟨"Roboto-Bold", false, false, false, none, false⟩

/-- A text item in a non-approved font, unlocked, not a placeholder. -/
def itemUnsafe : SlideItem Nat := ⟨"Arial-Bold", false, false, false, none, false⟩

/-- A locked text item in an approved font. -/
def itemLockedSafe : SlideItem Nat := ⟨"Roboto-Bold", true, false, false, none, false⟩

/-- A locked text item in a non-approved font. -/
def itemLockedUnsafe : SlideItem Nat := ⟨"Arial", true, false, false, none, false⟩

/-- The default body placeholder, in a non-approved font. -/
def itemBody : SlideItem Nat := ⟨"Arial", false, true, false, none, false⟩

/-- A chart item. -/
def itemChart : SlideItem Nat := ⟨"", false, false, false, none, false⟩

/-- A slide holding one safe and one unsafe text item and a chart. -/
def slideA : Slide Nat := ⟨[itemSafe, itemUnsafe], [], [itemChart], [], [], [], [], true, true⟩

/-- A slide holding a locked safe text item. -/
def slideLockedSafe : Slide Nat := ⟨[itemLockedSafe], [], [], [], [], [], [], true, true⟩

/-- A slide holding a locked unsafe text item. -/
def slideLockedUnsafe : Slide Nat := ⟨[itemLockedUnsafe], [], [], [], [], [], [], true, true⟩

/-- A slide with no items. -/
def slideEmpty : Slide Nat := ⟨[], [], [], [], [], [], [], true, true⟩

/-- A rasteriser for witness runs. -/
def rend0 : Slide Nat → Nat := fun _ => 0

/-- A file system holding one Keynote document at `d/s.key`. -/
def fsIn (deck : List (Slide Nat)) : FS Nat :=
  fun q => if q = FsPath.outside "d/s.key" then some (FileData.key deck) else none

/-! Helper lemmas: decimal formatting. -/

theorem data_mk (l : List Char) : (String.mk l).data = l := rfl

theorem data_app (a b : String) : (a ++ b).data = a.data ++ b.data := by
  cases a; cases b; rfl

theorem digitChar_toNat : ∀ d, d < 10 → (Nat.digitChar d).toNat - 48 = d := by decide

theorem decode_decChars : ∀ fuel n, n < fuel → (decChars fuel n).foldl decStep 0 = n := by
  intro fuel
  induction fuel with
  | zero => intro n h; omega
  | succ fuel ih =>
    intro n h
    by_cases h10 : n < 10
    · simp [decChars, h10, decStep, digitChar_toNat n h10]
    · have hdiv : n / 10 < n := Nat.div_lt_self (by omega) (by omega)
      have hfuel : n / 10 < fuel := by omega
      simp only [decChars, if_neg h10, List.foldl_append, ih (n / 10) hfuel]
      simp [decStep, digitChar_toNat (n % 10) (Nat.mod_lt n (by omega))]
      omega

theorem foldl_decStep_replicate (k : Nat) (l : List Char) :
    (List.replicate k '0' ++ l).foldl decStep 0 = l.foldl decStep 0 := by
  induction k with
  | zero => simp
  | succ k ih => simpa [List.replicate_succ, decStep] using ih

theorem decode_pad4 (n : Nat) : (pad4 n).data.foldl decStep 0 = n := by
  have : (pad4 n).data =
      List.replicate (4 - (decRepr n).length) '0' ++ decChars (n + 1) n := rfl
  rw [this, foldl_decStep_replicate]
  exact decode_decChars (n + 1) n (Nat.lt_succ_self n)

theorem pad4_inj {a b : Nat} (h : pad4 a = pad4 b) : a = b := by
  have := congrArg (fun s => s.data.foldl decStep 0) h
  simpa [decode_pad4] using this

theorem page_name_inj {a b : Nat} (h : page_name a = page_name b) : a = b := by
  have hd := congrArg String.data h
  simp only [page_name, data_app] at hd
  have h2 : (pad4 a).data = (pad4 b).data := (List.append_inj' hd rfl).1
  have := congrArg (fun l => l.foldl decStep 0) h2
  simpa [decode_pad4] using this

/-! Helper lemmas: `split_pdf`. -/

theorem split_pdf_length (pages : List P) : (split_pdf pages).length = pages.length := by
  simp [split_pdf]

theorem split_pdf_getElem (pages : List P) (i : Nat) (h : i < pages.length) :
    getElem (split_pdf pages) i (by rw [split_pdf_length]; exact h) =
      (page_name (i + 1), [pages[i]]) := by
  simp [split_pdf]

theorem split_pdf_map_fst (pages : List P) :
    (split_pdf pages).map Prod.fst =
      (List.range pages.length).map (fun i => page_name (i + 1)) := by
  rw [split_pdf, List.map_map, ← List.enum_map_fst pages, List.map_map]
  rfl

theorem split_pdf_fst_nodup (pages : List P) : ((split_pdf pages).map Prod.fst).Nodup := by
  rw [split_pdf_map_fst]
  exact (List.nodup_range _).map (fun a b h => by
    have := page_name_inj h
    omega)

/-! Helper lemmas: the file-system model. -/

theorem update_same (fs : FS P) (p : FsPath) (v : Option (FileData P)) :
    update fs p v p = v := by simp [update]

theorem update_temp_outside (fs : FS P) (sd : Option String) (nm : String)
    (v : Option (FileData P)) (q : String) :
    update fs (FsPath.temp sd nm) v (FsPath.outside q) = fs (FsPath.outside q) := by
  simp [update]

theorem update_temp_none_some (fs : FS P) (nm : String) (v : Option (FileData P))
    (folder q : String) :
    update fs (FsPath.temp none nm) v (FsPath.temp (some folder) q) =
      fs (FsPath.temp (some folder) q) := by
  simp [update]

theorem write_pages_cons (fs : FS P) (folder : String) (pr : String × List P)
    (prs : List (String × List P)) :
    write_pages fs folder (pr :: prs) =
      write_pages (update fs (FsPath.temp (some folder) pr.1) (some (FileData.pdf pr.2)))
        folder prs := rfl

theorem write_pages_outside (folder : String) :
    ∀ (prs : List (String × List P)) (fs : FS P) (q : String),
      write_pages fs folder prs (FsPath.outside q) = fs (FsPath.outside q) := by
  intro prs
  induction prs with
  | nil => intro fs q; rfl
  | cons pr prs ih =>
    intro fs q
    rw [write_pages_cons, ih, update_temp_outside]

theorem write_pages_not_mem (folder : String) :
    ∀ (prs : List (String × List P)) (fs : FS P) (nm : String),
      (∀ pr ∈ prs, nm ≠ pr.1) →
      write_pages fs folder prs (FsPath.temp (some folder) nm) =
        fs (FsPath.temp (some folder) nm) := by
  intro prs
  induction prs with
  | nil => intro fs nm _; rfl
  | cons pr prs ih =>
    intro fs nm h
    rw [write_pages_cons, ih _ nm (fun pr2 hpr2 => h pr2 (List.mem_cons_of_mem _ hpr2))]
    have hne : FsPath.temp (some folder) nm ≠ FsPath.temp (some folder) pr.1 := by
      simp [h pr (List.mem_cons_self _ _)]
    simp [update, hne]

theorem write_pages_mem (folder : String) :
    ∀ (prs : List (String × List P)) (fs : FS P) (nm : String) (c : List P),
      (nm, c) ∈ prs → (prs.map Prod.fst).Nodup →
      write_pages fs folder prs (FsPath.temp (some folder) nm) = some (FileData.pdf c) := by
  intro prs
  induction prs with
  | nil => intro fs nm c hmem _; cases hmem
  | cons pr prs ih =>
    intro fs nm c hmem hnd
    rw [write_pages_cons]
    rcases List.mem_cons.mp hmem with heq | hmem2
    · subst heq
      rw [write_pages_not_mem folder prs _ nm ?_]
      · simp [update]
      · intro pr2 hpr2 heq2
        have : nm ∈ prs.map Prod.fst := by
          rw [heq2]; exact List.mem_map_of_mem Prod.fst hpr2
        exact (List.nodup_cons.mp hnd).1 this
    · exact ih _ nm c hmem2 (List.nodup_cons.mp hnd).2

/-! Helper lemmas: the text-copy loop and the full pipeline. -/

theorem clean_text_slide_images (fonts : List String) (s : Slide P) :
    (clean_text_slide fonts s).images = [] := by
  simp [clean_text_slide, clean_slide]

theorem overlay_slide_images (fonts : List String) (d : List P) (s : Slide P) :
    (overlay_slide fonts (some d) s).images =
      [⟨"", false, false, false, some d, true⟩] := by
  simp [overlay_slide, clean_text_slide_images]

theorem frozen_slide_images (rend : Slide P → P) (fonts : List String) (s : Slide P) :
    (frozen_slide rend fonts s).images =
      [⟨"", false, false, false, some [rend (clean_slide fonts false s)], true⟩] :=
  overlay_slide_images ..

theorem process_doc_text_eq (fonts : List String) (fs : FS P) :
    ∀ (ss : List (Slide P)) (ps : List FsPath), ss.length ≤ ps.length →
      process_doc_text fonts fs ss ps =
        some ((ss.zip ps).map fun sp => overlay_slide fonts (clip_data fs sp.2) sp.1) := by
  intro ss
  induction ss with
  | nil => intro ps _; simp [process_doc_text]
  | cons s ss ih =>
    intro ps hle
    cases ps with
    | nil => simp at hle
    | cons p ps =>
      have hle2 : ss.length ≤ ps.length := by
        simp only [List.length_cons] at hle; omega
      rw [List.zip_cons_cons]
      simp [process_doc_text, ih ps hle2]

theorem overlay_zip_eq (fonts : List String) (rend : Slide P → P) (fs : FS P)
    (folder : String) (deck : List (Slide P)) (pages : List P)
    (hp : pages = (deck.map (clean_slide fonts false)).map rend)
    (hfs : ∀ j (hj : j < pages.length),
      fs (FsPath.temp (some folder) (page_name (j + 1))) =
        some (FileData.pdf [pages[j]])) :
    (deck.zip ((split_pdf pages).map fun pr => FsPath.temp (some folder) pr.1)).map
        (fun sp => overlay_slide fonts (clip_data fs sp.2) sp.1)
      = deck.map (frozen_slide rend fonts) := by
  have hlen : pages.length = deck.length := by simp [hp]
  apply List.ext_get
  · simp [List.length_zip, split_pdf_length, hlen]
  · intro i h1 h2
    have hid : i < deck.length := by simpa using h2
    have hip : i < pages.length := by omega
    have hsplit : i < (split_pdf pages).length := by rw [split_pdf_length]; exact hip
    simp only [List.get_eq_getElem, List.getElem_map, List.getElem_zip]
    simp only [split_pdf_getElem pages i hip]
    have hclip : clip_data fs (FsPath.temp (some folder) (page_name (i + 1))) =
        some [pages[i]] := by
      simp [clip_data, hfs i hip]
    rw [hclip]
    have hpi : pages[i] = rend (clean_slide fonts false deck[i]) := by
      subst hp; simp [List.getElem_map]
    rw [hpi]
    rfl

theorem process_run (fs0 : FS P) (rend : Slide P → P) (dir stem suffix : String)
    (fonts : List String) (outOpt : Option String) (deck : List (Slide P))
    (h : fs0 (FsPath.outside (dir ++ "/" ++ stem ++ suffix)) = some (FileData.key deck)) :
    process fs0 rend dir stem suffix fonts outOpt =
      some (process_result fs0 (FileData.key (deck.map (frozen_slide rend fonts)))
        (outOpt.getD (dir ++ "/" ++ stem ++ "-frozen.key"))) := by
  simp only [process, h, update_same, update_temp_outside, write_pages_outside]
  rw [process_doc_text_eq fonts _ deck _ (by simp [split_pdf_length])]
  rw [overlay_zip_eq fonts rend _ (stem ++ "-pdf") deck
    ((deck.map (clean_slide fonts false)).map rend) rfl ?hfs]
  case hfs =>
    intro j hj
    rw [update_temp_none_some]
    apply write_pages_mem
    · have := split_pdf_getElem ((deck.map (clean_slide fonts false)).map rend) j hj
      exact this ▸ List.getElem_mem _
    · exact split_pdf_fst_nodup _
  refine congrArg some (funext fun q => ?_)
  cases q with
  | temp sd nm => rfl
  | outside nm =>
    show update (update _ _ _) _ none (FsPath.outside nm) = _
    rw [update_temp_outside]
    by_cases hq : nm = outOpt.getD (dir ++ "/" ++ stem ++ "-frozen.key")
    · simp [update, process_result, hq]
    · have hne : FsPath.outside nm ≠
          FsPath.outside (outOpt.getD (dir ++ "/" ++ stem ++ "-frozen.key")) := by
        simp [hq]
      simp [update, process_result, hq, hne, update_temp_outside, write_pages_outside]

/-! Helper lemmas: fields of a cleaned slide. -/

theorem clean_slide_textItems (fonts : List String) (keep : Bool) (s : Slide P) :
    (clean_slide fonts keep s).textItems = clean_items fonts keep s.textItems := by
  cases keep <;> rfl

theorem clean_slide_shapes (fonts : List String) (keep : Bool) (s : Slide P) :
    (clean_slide fonts keep s).shapes = clean_items fonts keep s.shapes := by
  cases keep <;> rfl

theorem clean_slide_charts (fonts : List String) (keep : Bool) (s : Slide P) :
    (clean_slide fonts keep s).charts = if keep then [] else s.charts := by
  cases keep <;> rfl

theorem clean_slide_images (fonts : List String) (keep : Bool) (s : Slide P) :
    (clean_slide fonts keep s).images = if keep then [] else s.images := by
  cases keep <;> rfl

theorem clean_slide_groups (fonts : List String) (keep : Bool) (s : Slide P) :
    (clean_slide fonts keep s).groups = if keep then [] else s.groups := by
  cases keep <;> rfl

theorem clean_slide_lines (fonts : List String) (keep : Bool) (s : Slide P) :
    (clean_slide fonts keep s).lines = if keep then [] else s.lines := by
  cases keep <;> rfl

theorem clean_slide_tables (fonts : List String) (keep : Bool) (s : Slide P) :
    (clean_slide fonts keep s).tables = if keep then [] else s.tables := by
  cases keep <;> rfl

/-! The claims. -/

/-- C1: `safe_text_item` classifies an item as a safe text item exactly when
the part of the item's font name before the first hyphen starts with one of
the configured allow-listed font family names, and the classification
depends on nothing about the item except its font name. -/
theorem safe_text_item_spec (fonts : List String) (it : SlideItem P) :
    (safe_text_item fonts it = true ↔
      ∃ f ∈ fonts, ∃ r, (font_family it.font).data = f.data ++ r)
    ∧ ∀ it2 : SlideItem P, it2.font = it.font →
        safe_text_item fonts it2 = safe_text_item fonts it := by
  constructor
  · simp only [safe_text_item, List.any_eq_true]
    constructor
    · rintro ⟨f, hf, hp⟩
      rcases List.isPrefixOf_iff_prefix.mp hp with ⟨t, ht⟩
      exact ⟨f, hf, t, ht.symm⟩
    · rintro ⟨f, hf, r, hr⟩
      exact ⟨f, hf, List.isPrefixOf_iff_prefix.mpr ⟨r, hr.symm⟩⟩
  · intro it2 h2
    simp [safe_text_item, h2]

/-- Witness for C1 on a concrete item: the item with font `Roboto-Bold` is
safe for the allow-list `["Roboto"]`, and an item with the same font name is
classified identically. -/
theorem safe_text_item_spec_witness :
    (safe_text_item ["Roboto"] itemSafe = true ↔
      ∃ f ∈ ["Roboto"], ∃ r, (font_family itemSafe.font).data = f.data ++ r)
    ∧ safe_text_item ["Roboto"] itemLockedSafe = safe_text_item ["Roboto"] itemSafe :=
  ⟨(safe_text_item_spec ["Roboto"] itemSafe).1,
    (safe_text_item_spec ["Roboto"] itemSafe).2 itemLockedSafe rfl⟩

/-- C9: `clean_items` never deletes a locked item: every locked item present
before a cleaning pass is still present after it, independent of its font. -/
theorem clean_items_locked (fonts : List String) (keep : Bool)
    (items : List (SlideItem P)) (it : SlideItem P)
    (hmem : it ∈ items) (hlock : it.locked = true) :
    it ∈ clean_items fonts keep items := by
  simp [clean_items, List.mem_filter, deletes_item, hmem, hlock]

/-- Witness for C9: a locked item whose font is on the allow-list survives
the vector-copy pass that would otherwise delete it. -/
theorem clean_items_locked_witness :
    itemLockedSafe ∈ [itemLockedSafe] ∧ itemLockedSafe.locked = true ∧
    itemLockedSafe ∈ clean_items ["Roboto"] false [itemLockedSafe] :=
  ⟨by decide, by decide,
    clean_items_locked ["Roboto"] false [itemLockedSafe] itemLockedSafe
      (by decide) (by decide)⟩

/-- C10: `clean_items` never deletes a default title or default body
placeholder; when such an item is scheduled for removal it is excluded from
the deletion list and the slide's `body_showing` / `title_showing` property
ends up `False` exactly when it was `True` and a scheduled placeholder of
that kind occurs among the items (the body branch takes priority, matching
the `elif` in the source). -/
theorem clean_items_placeholders (fonts : List String) (keep body title : Bool)
    (items : List (SlideItem P)) :
    (∀ it ∈ items, (it.isDefaultBody = true ∨ it.isDefaultTitle = true) →
      it ∈ clean_items fonts keep items)
    ∧ (body_after fonts keep body items = false ↔
        (body = false ∨ ∃ it ∈ items, it.isDefaultBody = true ∧
          safe_text_item fonts it ≠ keep))
    ∧ (title_after fonts keep title items = false ↔
        (title = false ∨ ∃ it ∈ items, it.isDefaultBody = false ∧
          it.isDefaultTitle = true ∧ safe_text_item fonts it ≠ keep)) := by
  refine ⟨?_, ?_, ?_⟩
  · intro it hmem hdef
    have hdel : deletes_item fonts keep it = false := by
      rcases hdef with hd | hd <;> simp [deletes_item, hd]
    simp [clean_items, List.mem_filter, hmem, hdel]
  · cases body <;> simp [body_after, List.any_eq_true, bne_iff_ne]
  · cases title <;> simp [title_after, List.any_eq_true, bne_iff_ne, and_assoc]

/-- Witness for C10: an unsafe default-body placeholder survives the
text-copy pass and forces `body_showing` to `False`. -/
theorem clean_items_placeholders_witness :
    itemBody ∈ clean_items ["Roboto"] true [itemBody] ∧
    body_after ["Roboto"] true true [itemBody] = false :=
  ⟨(clean_items_placeholders ["Roboto"] true true true [itemBody]).1 itemBody
      (by decide) (by decide),
    (clean_items_placeholders ["Roboto"] true true true [itemBody]).2.1.mpr (by decide)⟩

/-- C5: for a non-locked item that is no default placeholder, the two
cleaning passes are complementary: within each item collection, the item
survives `clean_slide` with `keep_text_items=True` exactly when it does not
survive `clean_slide` with `keep_text_items=False`. -/
theorem clean_slide_complementary (fonts : List String) (s : Slide P) (it : SlideItem P)
    (hl : it.locked = false) (hb : it.isDefaultBody = false)
    (ht : it.isDefaultTitle = false) :
    (it ∈ s.textItems →
      (it ∈ (clean_slide fonts true s).textItems ↔
        it ∉ (clean_slide fonts false s).textItems))
    ∧ (it ∈ s.shapes →
      (it ∈ (clean_slide fonts true s).shapes ↔
        it ∉ (clean_slide fonts false s).shapes))
    ∧ (it ∈ s.charts →
      (it ∈ (clean_slide fonts true s).charts ↔
        it ∉ (clean_slide fonts false s).charts))
    ∧ (it ∈ s.images →
      (it ∈ (clean_slide fonts true s).images ↔
        it ∉ (clean_slide fonts false s).images))
    ∧ (it ∈ s.groups →
      (it ∈ (clean_slide fonts true s).groups ↔
        it ∉ (clean_slide fonts false s).groups))
    ∧ (it ∈ s.lines →
      (it ∈ (clean_slide fonts true s).lines ↔
        it ∉ (clean_slide fonts false s).lines))
    ∧ (it ∈ s.tables →
      (it ∈ (clean_slide fonts true s).tables ↔
        it ∉ (clean_slide fonts false s).tables)) := by
  refine ⟨?_, ?_, ?_, ?_, ?_, ?_, ?_⟩ <;> intro hmem
  · rw [clean_slide_textItems, clean_slide_textItems]
    cases hsafe : safe_text_item fonts it <;>
      simp [clean_items, List.mem_filter, deletes_item, hl, hb, ht, hsafe, hmem]
  · rw [clean_slide_shapes, clean_slide_shapes]
    cases hsafe : safe_text_item fonts it <;>
      simp [clean_items, List.mem_filter, deletes_item, hl, hb, ht, hsafe, hmem]
  · rw [clean_slide_charts, clean_slide_charts]; simp [hmem]
  · rw [clean_slide_images, clean_slide_images]; simp [hmem]
  · rw [clean_slide_groups, clean_slide_groups]; simp [hmem]
  · rw [clean_slide_lines, clean_slide_lines]; simp [hmem]
  · rw [clean_slide_tables, clean_slide_tables]; simp [hmem]

/-- Witness for C5: the safe unlocked text item of `slideA` is kept by the
text-copy pass exactly because the vector-copy pass deletes it. -/
theorem clean_slide_complementary_witness :
    itemSafe.locked = false ∧ itemSafe.isDefaultBody = false ∧
    itemSafe.isDefaultTitle = false ∧ itemSafe ∈ slideA.textItems ∧
    (itemSafe ∈ (clean_slide ["Roboto"] true slideA).textItems ↔
      itemSafe ∉ (clean_slide ["Roboto"] false slideA).textItems) :=
  ⟨rfl, rfl, rfl, by decide,
    (clean_slide_complementary ["Roboto"] slideA itemSafe rfl rfl rfl).1 (by decide)⟩

/-- C2 counterexample: a locked text item in an allow-listed font is a safe
text item, yet `clean_pdf_slide` retains it in the vector copy, so the claim
that every safe text item is removed fails. -/
theorem clean_pdf_slide_cex :
    safe_text_item ["Roboto"] itemLockedSafe = true ∧
    itemLockedSafe ∈ slideLockedSafe.textItems ∧
    itemLockedSafe ∈ (clean_pdf_slide ["Roboto"] slideLockedSafe).textItems := by
  decide

/-- C2 (amended): `clean_pdf_slide` removes every safe text item or shape
that is not locked and is no default placeholder, retains every text item or
shape that is not a safe text item, and leaves charts, images, groups, lines
and tables untouched. -/
theorem clean_pdf_slide_spec (fonts : List String) (s : Slide P) (it : SlideItem P) :
    (it ∈ s.textItems → safe_text_item fonts it = true → it.locked = false →
      it.isDefaultBody = false → it.isDefaultTitle = false →
      it ∉ (clean_pdf_slide fonts s).textItems)
    ∧ (it ∈ s.shapes → safe_text_item fonts it = true → it.locked = false →
      it.isDefaultBody = false → it.isDefaultTitle = false →
      it ∉ (clean_pdf_slide fonts s).shapes)
    ∧ (it ∈ s.textItems → safe_text_item fonts it = false →
      it ∈ (clean_pdf_slide fonts s).textItems)
    ∧ (it ∈ s.shapes → safe_text_item fonts it = false →
      it ∈ (clean_pdf_slide fonts s).shapes)
    ∧ (clean_pdf_slide fonts s).charts = s.charts
    ∧ (clean_pdf_slide fonts s).images = s.images
    ∧ (clean_pdf_slide fonts s).groups = s.groups
    ∧ (clean_pdf_slide fonts s).lines = s.lines
    ∧ (clean_pdf_slide fonts s).tables = s.tables := by
  refine ⟨?_, ?_, ?_, ?_, ?_, ?_, ?_, ?_, ?_⟩
  · intro _ hs hl hb ht
    rw [clean_pdf_slide, clean_slide_textItems]
    simp [clean_items, List.mem_filter, deletes_item, hs, hl, hb, ht]
  · intro _ hs hl hb ht
    rw [clean_pdf_slide, clean_slide_shapes]
    simp [clean_items, List.mem_filter, deletes_item, hs, hl, hb, ht]
  · intro hm hs
    rw [clean_pdf_slide, clean_slide_textItems]
    simp [clean_items, List.mem_filter, deletes_item, hs, hm]
  · intro hm hs
    rw [clean_pdf_slide, clean_slide_shapes]
    simp [clean_items, List.mem_filter, deletes_item, hs, hm]
  · simp [clean_pdf_slide, clean_slide_charts]
  · simp [clean_pdf_slide, clean_slide_images]
  · simp [clean_pdf_slide, clean_slide_groups]
  · simp [clean_pdf_slide, clean_slide_lines]
  · simp [clean_pdf_slide, clean_slide_tables]

/-- Witness for the amended C2 on `slideA`: its safe unlocked text item is
removed from the vector copy and its unsafe one is retained. -/
theorem clean_pdf_slide_spec_witness :
    itemSafe ∈ slideA.textItems ∧ safe_text_item ["Roboto"] itemSafe = true ∧
    itemSafe ∉ (clean_pdf_slide ["Roboto"] slideA).textItems ∧
    itemUnsafe ∈ slideA.textItems ∧ safe_text_item ["Roboto"] itemUnsafe = false ∧
    itemUnsafe ∈ (clean_pdf_slide ["Roboto"] slideA).textItems :=
  ⟨by decide, by decide,
    (clean_pdf_slide_spec ["Roboto"] slideA itemSafe).1
      (by decide) (by decide) rfl rfl rfl,
    by decide, by decide,
    (clean_pdf_slide_spec ["Roboto"] slideA itemUnsafe).2.2.1 (by decide) (by decide)⟩

/-- C3 counterexample: a locked text item in a non-allow-listed font is
retained by `clean_text_slide`, so the claim that every text item with a
non-matching font is removed fails. -/
theorem clean_text_slide_cex :
    safe_text_item ["Roboto"] itemLockedUnsafe = false ∧
    itemLockedUnsafe ∈ slideLockedUnsafe.textItems ∧
    itemLockedUnsafe ∈ (clean_text_slide ["Roboto"] slideLockedUnsafe).textItems := by
  decide

/-- C3 (amended): `clean_text_slide` removes every text item or shape whose
font does not match the allow-list provided it is not locked and is no
default placeholder (placeholders are hidden, locked items retained),
deletes all charts, images, groups, lines and tables, and retains every safe
text item. -/
theorem clean_text_slide_spec (fonts : List String) (s : Slide P) (it : SlideItem P) :
    (it ∈ s.textItems → safe_text_item fonts it = false → it.locked = false →
      it.isDefaultBody = false → it.isDefaultTitle = false →
      it ∉ (clean_text_slide fonts s).textItems)
    ∧ (it ∈ s.shapes → safe_text_item fonts it = false → it.locked = false →
      it.isDefaultBody = false → it.isDefaultTitle = false →
      it ∉ (clean_text_slide fonts s).shapes)
    ∧ (it ∈ s.textItems → safe_text_item fonts it = true →
      it ∈ (clean_text_slide fonts s).textItems)
    ∧ (it ∈ s.shapes → safe_text_item fonts it = true →
      it ∈ (clean_text_slide fonts s).shapes)
    ∧ (clean_text_slide fonts s).charts = []
    ∧ (clean_text_slide fonts s).images = []
    ∧ (clean_text_slide fonts s).groups = []
    ∧ (clean_text_slide fonts s).lines = []
    ∧ (clean_text_slide fonts s).tables = [] := by
  refine ⟨?_, ?_, ?_, ?_, ?_, ?_, ?_, ?_, ?_⟩
  · intro _ hs hl hb ht
    rw [clean_text_slide, clean_slide_textItems]
    simp [clean_items, List.mem_filter, deletes_item, hs, hl, hb, ht]
  · intro _ hs hl hb ht
    rw [clean_text_slide, clean_slide_shapes]
    simp [clean_items, List.mem_filter, deletes_item, hs, hl, hb, ht]
  · intro hm hs
    rw [clean_text_slide, clean_slide_textItems]
    simp [clean_items, List.mem_filter, deletes_item, hs, hm]
  · intro hm hs
    rw [clean_text_slide, clean_slide_shapes]
    simp [clean_items, List.mem_filter, deletes_item, hs, hm]
  · simp [clean_text_slide, clean_slide_charts]
  · simp [clean_text_slide, clean_slide_images]
  · simp [clean_text_slide, clean_slide_groups]
  · simp [clean_text_slide, clean_slide_lines]
  · simp [clean_text_slide, clean_slide_tables]

/-- Witness for the amended C3 on `slideA`: the unsafe unlocked text item is
removed from the text copy, the safe one is retained, and the chart list is
emptied. -/
theorem clean_text_slide_spec_witness :
    itemUnsafe ∈ slideA.textItems ∧ safe_text_item ["Roboto"] itemUnsafe = false ∧
    itemUnsafe ∉ (clean_text_slide ["Roboto"] slideA).textItems ∧
    itemSafe ∈ slideA.textItems ∧ safe_text_item ["Roboto"] itemSafe = true ∧
    itemSafe ∈ (clean_text_slide ["Roboto"] slideA).textItems ∧
    (clean_text_slide ["Roboto"] slideA).charts = [] :=
  ⟨by decide, by decide,
    (clean_text_slide_spec ["Roboto"] slideA itemUnsafe).1
      (by decide) (by decide) rfl rfl rfl,
    by decide, by decide,
    (clean_text_slide_spec ["Roboto"] slideA itemSafe).2.2.1 (by decide) (by decide),
    (clean_text_slide_spec ["Roboto"] slideA itemSafe).2.2.2.2.1⟩

/-- C6: `split_pdf` produces exactly one single-page file per source page:
the list has the same length as the page list, and the `i`-th entry (0-based)
is the file named with the zero-padded number `i+1` followed by `.pdf`,
holding exactly page `i`; the entries are listed in ascending page order. -/
theorem split_pdf_spec (pages : List P) :
    (split_pdf pages).length = pages.length ∧
    ∀ i (h : i < pages.length),
      (split_pdf pages).get ⟨i, by rw [split_pdf_length]; exact h⟩ =
        (pad4 (i + 1) ++ ".pdf", [pages.get ⟨i, h⟩]) := by
  refine ⟨split_pdf_length pages, fun i h => ?_⟩
  simpa [List.get_eq_getElem, page_name] using split_pdf_getElem pages i h

/-- Witness for C6 on a two-page PDF: the second file is `0002.pdf` and
holds exactly the second page. -/
theorem split_pdf_spec_witness :
    (split_pdf [10, 20]).length = ([10, 20] : List Nat).length ∧
    (split_pdf [10, 20]).get ⟨1, by rw [split_pdf_length]; decide⟩ =
      (pad4 2 ++ ".pdf", [([10, 20] : List Nat).get ⟨1, by decide⟩]) ∧
    pad4 2 ++ ".pdf" = "0002.pdf" :=
  ⟨(split_pdf_spec [10, 20]).1, (split_pdf_spec [10, 20]).2 1 (by decide), by decide⟩

/-- C4: after a successful run of `process`, the deck at the output path has,
for every 1-based slide number `i`, slide `i` overlaid with exactly the
`i`-th page of the PDF exported from the vector copy — the rasterisation of
slide `i` after `clean_pdf_slide` — pasted as the slide's single image and
sent to the background, so each slide carries one background PDF page. -/
theorem process_overlays_pages (fs0 : FS P) (rend : Slide P → P)
    (dir stem suffix : String) (fonts : List String) (outOpt : Option String)
    (deck : List (Slide P))
    (h : fs0 (FsPath.outside (dir ++ "/" ++ stem ++ suffix)) = some (FileData.key deck))
    (i : Nat) (h1 : 1 ≤ i) (h2 : i ≤ deck.length) :
    ∃ fs' : FS P,
      process fs0 rend dir stem suffix fonts outOpt = some fs' ∧
      ∃ outDeck : List (Slide P),
        fs' (FsPath.outside (outOpt.getD (dir ++ "/" ++ stem ++ "-frozen.key"))) =
          some (FileData.key outDeck) ∧
        outDeck.length = deck.length ∧
        ∀ hi : i - 1 < outDeck.length,
          (outDeck.get ⟨i - 1, hi⟩).images =
            [⟨"", false, false, false,
              some [rend (clean_slide fonts false (deck.get ⟨i - 1, by omega⟩))],
              true⟩] := by
  refine ⟨_, process_run fs0 rend dir stem suffix fonts outOpt deck h,
    deck.map (frozen_slide rend fonts), by simp [process_result], by simp, ?_⟩
  intro hi
  simp only [List.get_eq_getElem, List.getElem_map]
  rw [frozen_slide_images]

/-- Witness for C4: a one-slide deck gets its single slide overlaid with the
page rendered from its cleaned vector copy, sent to the back. -/
theorem process_overlays_pages_witness :
    fsIn [slideEmpty] (FsPath.outside ("d" ++ "/" ++ "s" ++ ".key")) =
        some (FileData.key [slideEmpty]) ∧ 1 ≤ 1 ∧
      1 ≤ ([slideEmpty] : List (Slide Nat)).length ∧
    ∃ fs' : FS Nat,
      process (fsIn [slideEmpty]) rend0 "d" "s" ".key" ["Roboto"] none = some fs' ∧
      ∃ outDeck : List (Slide Nat),
        fs' (FsPath.outside ((none : Option String).getD
            ("d" ++ "/" ++ "s" ++ "-frozen.key"))) = some (FileData.key outDeck) ∧
        outDeck.length = ([slideEmpty] : List (Slide Nat)).length ∧
        ∀ hi : 1 - 1 < outDeck.length,
          (outDeck.get ⟨1 - 1, hi⟩).images =
            [⟨"", false, false, false,
              some [rend0 (clean_slide ["Roboto"] false
                (([slideEmpty] : List (Slide Nat)).get ⟨1 - 1, by decide⟩))],
              true⟩] :=
  ⟨by decide, by decide, by decide,
    process_overlays_pages (fsIn [slideEmpty]) rend0 "d" "s" ".key" ["Roboto"] none
      [slideEmpty] (by decide) 1 (by decide) (by decide)⟩

/-- C7: when the input file holds a Keynote document, `process` completes and
the output file exists: the processed text copy sits at the output path,
which is `out_path` when given and `<input directory>/<input stem>-frozen.key`
otherwise. -/
theorem process_output_exists (fs0 : FS P) (rend : Slide P → P)
    (dir stem suffix : String) (fonts : List String) (outOpt : Option String)
    (deck : List (Slide P))
    (h : fs0 (FsPath.outside (dir ++ "/" ++ stem ++ suffix)) = some (FileData.key deck)) :
    ∃ fs' : FS P,
      process fs0 rend dir stem suffix fonts outOpt = some fs' ∧
      fs' (FsPath.outside (outOpt.getD (dir ++ "/" ++ stem ++ "-frozen.key"))) =
        some (FileData.key (deck.map (frozen_slide rend fonts))) :=
  ⟨_, process_run fs0 rend dir stem suffix fonts outOpt deck h,
    by simp [process_result]⟩

/-- Witness for C7: a concrete run with the default output path produces the
output file. -/
theorem process_output_exists_witness :
    fsIn [slideEmpty] (FsPath.outside ("d" ++ "/" ++ "s" ++ ".key")) =
        some (FileData.key [slideEmpty]) ∧
    ∃ fs' : FS Nat,
      process (fsIn [slideEmpty]) rend0 "d" "s" ".key" ["Roboto"] none = some fs' ∧
      fs' (FsPath.outside ((none : Option String).getD
          ("d" ++ "/" ++ "s" ++ "-frozen.key"))) =
        some (FileData.key (([slideEmpty] : List (Slide Nat)).map
          (frozen_slide rend0 ["Roboto"]))) :=
  ⟨by decide,
    process_output_exists (fsIn [slideEmpty]) rend0 "d" "s" ".key" ["Roboto"] none
      [slideEmpty] (by decide)⟩

/-- C8 counterexample: calling `process` with `out_path` equal to the input
path overwrites the input file with the processed deck, which differs from
the original, so the claim that the input file is never modified fails. -/
theorem process_preserves_input_cex :
    (process (fsIn [slideEmpty]) rend0 "d" "s" ".key" ["Roboto"] (some "d/s.key")).map
        (fun f => f (FsPath.outside "d/s.key")) =
      some (some (FileData.key [frozen_slide rend0 ["Roboto"] slideEmpty])) ∧
    fsIn [slideEmpty] (FsPath.outside "d/s.key") = some (FileData.key [slideEmpty]) ∧
    frozen_slide rend0 ["Roboto"] slideEmpty ≠ slideEmpty := by
  decide

/-- C8 (amended): `process` performs all deleting, hiding, pasting and
exporting on the two temporary-directory copies and never modifies the input
file, provided the output path is not the input path itself; the default
output path `<stem>-frozen.key` never equals the input path (whose name is
the stem followed by an empty or dot-initial extension). -/
theorem process_preserves_input (fs0 : FS P) (rend : Slide P → P)
    (dir stem suffix : String) (fonts : List String) (outOpt : Option String)
    (deck : List (Slide P))
    (h : fs0 (FsPath.outside (dir ++ "/" ++ stem ++ suffix)) = some (FileData.key deck)) :
    ((outOpt.getD (dir ++ "/" ++ stem ++ "-frozen.key") ≠ dir ++ "/" ++ stem ++ suffix) →
      ∃ fs' : FS P,
        process fs0 rend dir stem suffix fonts outOpt = some fs' ∧
        fs' (FsPath.outside (dir ++ "/" ++ stem ++ suffix)) =
          fs0 (FsPath.outside (dir ++ "/" ++ stem ++ suffix)))
    ∧ ((suffix = "" ∨ ∃ r : List Char, suffix = String.mk ('.' :: r)) → outOpt = none →
        outOpt.getD (dir ++ "/" ++ stem ++ "-frozen.key") ≠ dir ++ "/" ++ stem ++ suffix) := by
  constructor
  · intro hne
    refine ⟨_, process_run fs0 rend dir stem suffix fonts outOpt deck h, ?_⟩
    simp [process_result, Ne.symm hne]
  · intro hsuf hnone heq
    subst hnone
    rw [Option.getD_none] at heq
    have hd := congrArg String.data heq
    simp only [data_app] at hd
    have hcancel : ("-frozen.key" : String).data = suffix.data :=
      List.append_cancel_left hd
    rcases hsuf with hsuf | ⟨r, hsuf⟩ <;> subst hsuf
    · exact absurd hcancel (by decide)
    · rw [data_mk] at hcancel
      have hx : ("-frozen.key" : String).data =
          '-' :: ("frozen.key" : String).data := rfl
      rw [hx] at hcancel
      injection hcancel with h1 _
      exact absurd h1 (by decide)

/-- Witness for the amended C8: a run with an output path different from the
input path leaves the input file unchanged. -/
theorem process_preserves_input_witness :
    fsIn [slideEmpty] (FsPath.outside ("d" ++ "/" ++ "s" ++ ".key")) =
        some (FileData.key [slideEmpty]) ∧
    ((some "other.key" : Option String).getD ("d" ++ "/" ++ "s" ++ "-frozen.key") ≠
      "d" ++ "/" ++ "s" ++ ".key") ∧
    ∃ fs' : FS Nat,
      process (fsIn [slideEmpty]) rend0 "d" "s" ".key" ["Roboto"] (some "other.key") =
        some fs' ∧
      fs' (FsPath.outside ("d" ++ "/" ++ "s" ++ ".key")) =
        fsIn [slideEmpty] (FsPath.outside ("d" ++ "/" ++ "s" ++ ".key")) :=
  ⟨by decide, by decide,
    (process_preserves_input (fsIn [slideEmpty]) rend0 "d" "s" ".key" ["Roboto"]
      (some "other.key") [slideEmpty] (by decide)).1 (by decide)⟩

end KSF
